import Mathlib

/-!
Verification model of the TCP-server portion of CPPSocket
(src/cppSocket.cpp, src/cppSocket.h).

The mutable object state the claims concern (the fd_set `clients`,
`clientBuffers`, `failedSendCount`, `clientRcvQueue`, `maxSock`, `sock`,
`continueListening`) is embedded as an explicit record, and the code paths
that mutate it (the accept branch of `ListenThreadEntry`,
`HandleClient`/`DoReceive`, `DropClient`, `Destroy`, the two `TCPSend`
overloads, `TCPServerSend`, the TCP-server `Receive` overload,
`GetLastMessage`, `GetClientCount`, `GetBestLocalIPAddress`) as
state-passing functions.  Results of OS calls (`recv`, `send`, `accept`)
are environment inputs; calls to `close`/`closesocket` are recorded in a
log field so that resource-release claims are statable.  Message buffer
contents are not modeled: the claims only concern identities, recorded
message lengths, counters and queue contents.
-/

namespace CPPSocket

/-- Lookup in an association list keyed by socket ids, mirroring
`std::map::find` (keys are unique in every map the model builds). -/
def mapFind {α : Type} (k : Nat) : List (Nat × α) → Option α
  | [] => none
  | (k2, v) :: t => if k = k2 then some v else mapFind k t

/-- Update `m[k] = v`, mirroring `std::map::operator[]` followed by
assignment: replace the binding if present, else append it. -/
def mapInsert {α : Type} (k : Nat) (v : α) : List (Nat × α) → List (Nat × α)
  | [] => [(k, v)]
  | (k2, v2) :: t => if k = k2 then (k, v) :: t else (k2, v2) :: mapInsert k v t

/-- Removal of a key, mirroring `std::map::erase`. -/
def mapErase {α : Type} (k : Nat) (m : List (Nat × α)) : List (Nat × α) :=
  m.filter (fun p => p.1 != k)

/-- The key set of an association list. -/
def mapKeys {α : Type} (m : List (Nat × α)) : List Nat :=
  m.map Prod.fst

/-- TCP-server-relevant state of one CPPSocket object (cppSocket.h:106-150).
`sock` is the primary (listening) descriptor; `clients` models the fd_set
`clients` (which contains the listening socket too); `buffers` models
`clientBuffers` restricted to the recorded `messageSize` of each entry
(buffer bytes are irrelevant to the claims); `failed` models
`failedSendCount` (values kept below 2^16, as the C++ map stores
`unsigned short`); `queue` models `clientRcvQueue` with the front at the
head; `closeCalls` logs every descriptor passed to `close`/`closesocket`. -/
structure ServerState where
  sock : Nat
  maxSock : Nat
  clients : Finset Nat
  buffers : List (Nat × Int)
  failed : List (Nat × Nat)
  queue : List Nat
  continueListening : Bool
  closeCalls : List Nat
deriving DecidableEq

/-- Environment events driving the accept/receive loop
(`CPPSocket::ListenThreadEntry`, cppSocket.cpp:504-557):
`accept id` is the new-connection branch with `accept()` returning `id`;
`receive id n` is `HandleClient id` with `DoReceive` returning `n` bytes;
`drop id` is a caller-initiated `DropClient(id)`. -/
inductive Event where
  | accept (id : Nat)
  | receive (id : Nat) (n : Int)
  | drop (id : Nat)
deriving DecidableEq

/-- `CPPSocket::DropClient` (cppSocket.cpp:660-675): removes `id` from the
fd_set, erases its buffer map entry and failed-send counter, and closes
the descriptor.  The pending-receipt queue is not touched. -/
def dropClient (id : Nat) (s : ServerState) : ServerState :=
  { s with clients := s.clients.erase id,
           buffers := mapErase id s.buffers,
           failed := mapErase id s.failed,
           closeCalls := s.closeCalls ++ [id] }

/-- One event of the accept/receive loop.
Accept branch (cppSocket.cpp:548-550): add the new descriptor to the
fd_set and raise `maxSock`; nothing is added to `clientBuffers`.
Receive branch, i.e. `HandleClient` (cppSocket.cpp:575-590) together with
the buffer-registering side effect of `DoReceive` (cppSocket.cpp:902-930):
the buffer map entry for `id` is created if absent and its `messageSize`
set to the byte count; a count of zero or less drops the client, a
positive count appends `id` to the pending-receipt queue.  (For counts
that are dropped the stored value is never observable, so the model keeps
the signed count instead of its `unsigned int` cast.) -/
def step (s : ServerState) : Event → ServerState
  | Event.accept id =>
      { s with clients := insert id s.clients, maxSock := max s.maxSock id }
  | Event.receive id n =>
      if n ≤ 0 then dropClient id { s with buffers := mapInsert id n s.buffers }
      else { s with buffers := mapInsert id n s.buffers, queue := s.queue ++ [id] }
  | Event.drop id => dropClient id s

/-- Folding a whole event sequence through `step`. -/
def run (s : ServerState) (es : List Event) : ServerState :=
  es.foldl step s

/-- OS-plausible events: `accept` returns a descriptor that is not already
open in the object (and distinct from the listening socket); the loop only
dispatches `HandleClient` for a ready descriptor of the fd_set other than
the listening socket (cppSocket.cpp:524-553).  `DropClient` is a public
method callable with any id. -/
def validEventB (s : ServerState) : Event → Bool
  | Event.accept id => decide (id ∉ s.clients) && decide (id ≠ s.sock)
  | Event.receive id _ => decide (id ∈ s.clients) && decide (id ≠ s.sock)
  | Event.drop _ => true

/-- Validity of every event of a trace in its intermediate state. -/
def validTraceB : ServerState → List Event → Bool
  | _, [] => true
  | s, e :: es => validEventB s e && validTraceB (step s e) es

/-- State right after `ListenThreadEntry` initializes (cppSocket.cpp:506-508):
the fd_set is zeroed, the listening socket added, `maxSock = sock`;
`Listen` has set `continueListening = true` (cppSocket.cpp:349). -/
def initState (sockId : Nat) : ServerState :=
  { sock := sockId, maxSock := sockId, clients := {sockId},
    buffers := [], failed := [], queue := [],
    continueListening := true, closeCalls := [] }

/-- A freshly constructed CPPSocket before `Create`: member initializers
give `sock = 0` and `maxSock = 0` (cppSocket.h:113,135), the constructor
zeroes the fd_sets (cppSocket.cpp:73-79), all containers are empty. -/
def newCPPSocket : ServerState :=
  { sock := 0, maxSock := 0, clients := ∅,
    buffers := [], failed := [], queue := [],
    continueListening := false, closeCalls := [] }

/-- `CPPSocket::Destroy` (cppSocket.cpp:200-230): clears the stop flag and
joins the loop, zeroes the fd_sets, clears `failedSendCount`,
`clientBuffers` and the receive queue, then shuts down and closes the
primary socket.  Client descriptors are removed from the containers but
never passed to `close`; `sock` and `maxSock` keep their values. -/
def destroy (s : ServerState) : ServerState :=
  { s with continueListening := false, clients := ∅,
           failed := [], buffers := [], queue := [],
           closeCalls := s.closeCalls ++ [s.sock] }

/-- `CPPSocket::GetFailedSendCount` (cppSocket.cpp:694-702): the recorded
counter, or 0 when the id has no entry. -/
def getFailed (c : Nat) (s : ServerState) : Nat :=
  (mapFind c s.failed).getD 0

/-- The `failedSendCount[client]++` bookkeeping of the send paths: the map
entry is value-initialized to 0 when absent, and the stored value is an
`unsigned short`, so the increment is modulo 2^16. -/
def bumpFailed (c : Nat) (s : ServerState) : ServerState :=
  { s with failed := mapInsert c ((getFailed c s + 1) % 65536) s.failed }

/-- The `failedSendCount[client] = 0` reset of a fully successful send. -/
def resetFailed (c : Nat) (s : ServerState) : ServerState :=
  { s with failed := mapInsert c 0 s.failed }

/-- The per-attempt core shared by `TCPSend(client,...)`
(cppSocket.cpp:1050-1065) and the loop body of `TCPServerSend`
(cppSocket.cpp:1098-1114): `bytesSent` is the result of the OS `send`;
`SOCKET_ERROR` (-1) and a short write both count as failure and bump the
failed-send counter (the two source branches differ only in the log
message); a full write resets the counter.  Returns (success, new state). -/
def attemptSend (client : Nat) (bufferSize bytesSent : Int) (s : ServerState) :
    Bool × ServerState :=
  if bytesSent = -1 then (false, bumpFailed client s)
  else if bytesSent ≠ bufferSize then (false, bumpFailed client s)
  else (true, resetFailed client s)

/-- `CPPSocket::TCPSend(const SocketID&,...)` (cppSocket.cpp:1043-1068),
the unicast server send.  The guard is the literal source condition
`FD_ISSET(client, &clients) == 0 && client != sock`: only when the id is
neither in the fd_set nor equal to the primary socket does the call fail
without an OS write.  Returns (return value, whether `send` was called,
new state). -/
def tcpSend (client : Nat) (bufferSize bytesSent : Int) (s : ServerState) :
    Bool × Bool × ServerState :=
  if client ∉ s.clients ∧ client ≠ s.sock then (false, false, s)
  else
    let r := attemptSend client bufferSize bytesSent s
    (r.1, true, r.2)

/-- Consecutive unicast sends to the same client, one per OS result in
`rs`, keeping only the state. -/
def sendResultsApply (client : Nat) (bufferSize : Int) (rs : List Int)
    (s : ServerState) : ServerState :=
  rs.foldl (fun st r => (tcpSend client bufferSize r st).2.2) s

/-- Accumulator of the `TCPServerSend` loop: the two source booleans
`success` and `calledSend` (cppSocket.cpp:1091), plus the instrumented
list of ids for which `send` was called, in call order, and the state. -/
structure SendAcc where
  success : Bool
  calledSend : Bool
  attempted : List Nat
  state : ServerState

/-- One iteration of the `TCPServerSend` loop (cppSocket.cpp:1093-1115):
ids outside the fd_set and the primary socket are skipped; otherwise
`send` is attempted with result `res i` and the counters updated. -/
def serverSendStep (bufferSize : Int) (res : Nat → Int) (acc : SendAcc)
    (i : Nat) : SendAcc :=
  if i ∉ acc.state.clients ∨ i = acc.state.sock then acc
  else
    let r := attemptSend i bufferSize (res i) acc.state
    { success := acc.success && r.1, calledSend := true,
      attempted := acc.attempted ++ [i], state := r.2 }

/-- `CPPSocket::TCPServerSend` (cppSocket.cpp:1087-1118), the broadcast
send: loop `s = 0 .. maxSock`, then return `success && calledSend`. -/
def tcpServerSend (bufferSize : Int) (res : Nat → Int) (s : ServerState) :
    SendAcc :=
  let acc := (List.range (s.maxSock + 1)).foldl (serverSendStep bufferSize res)
    ⟨true, false, [], s⟩
  { acc with success := acc.success && acc.calledSend }

/-- `CPPSocket::Receive(SocketID&)` (cppSocket.cpp:779-791), the TCP-server
peek: an empty queue returns `SOCKET_ERROR` (-1) leaving everything
untouched; otherwise the front id is written to the output argument and
`clientBuffers[sockId].messageSize` is returned - the `operator[]` access
value-initializes a fresh entry (messageSize 0) when the front id has no
buffer map entry.  Returns (return value, output argument, new state). -/
def receiveServer (s : ServerState) : Int × Option Nat × ServerState :=
  match s.queue with
  | [] => (-1, none, s)
  | id :: _ =>
    match mapFind id s.buffers with
    | some sz => (sz, some id, s)
    | none => (0, some id, { s with buffers := mapInsert id 0 s.buffers })

/-- `CPPSocket::GetLastMessage` (cppSocket.cpp:811-822) in TCP-server mode,
restricted to its queue effect: pops the front id (the returned pointer
into that client buffer is not modeled). -/
def getLastMessage (s : ServerState) : Option Nat × ServerState :=
  match s.queue with
  | [] => (none, s)
  | id :: rest => (some id, { s with queue := rest })

/-- `CPPSocket::GetClientCount` (cppSocket.cpp:1347-1361): count of fd_set
members in `0 .. maxSock` other than the primary socket. -/
def getClientCount (s : ServerState) : Nat :=
  ((List.range (s.maxSock + 1)).filter
    (fun i => decide (i ∈ s.clients) && decide (i ≠ s.sock))).length

/-- `std::string::find_last_of` for a single character: index of the last
occurrence, or none. -/
def findLastOf (c : Char) : List Char → Option Nat
  | [] => none
  | a :: t =>
    match findLastOf c t with
    | some i => some (i + 1)
    | none => if a = c then some 0 else none

/-- The compare string of `GetBestLocalIPAddress` (cppSocket.cpp:1211):
`destination.substr(0, destination.find_last_of('.'))`; with no dot,
`find_last_of` yields npos and `substr` the whole string. -/
def upToLastDot (s : List Char) : List Char :=
  match findLastOf '.' s with
  | none => s
  | some i => s.take i

/-- The per-candidate test of `GetBestLocalIPAddress` (cppSocket.cpp:1215):
`ips[i].substr(0, compareString.size()).compare(compareString) == 0`. -/
def candidateMatches (compareString ip : List Char) : Bool :=
  decide (ip.take compareString.length = compareString)

/-- `CPPSocket::GetBestLocalIPAddress` (cppSocket.cpp:1204-1220) with the
enumerated local addresses passed in (`GetLocalIPAddress` is an OS query):
empty destination yields the wildcard (empty string); otherwise the first
candidate whose leading characters equal the destination compare string,
else the wildcard. -/
def getBestLocalIPAddress (ips : List (List Char)) (destination : List Char) :
    List Char :=
  if destination = [] then []
  else
    match ips.find? (candidateMatches (upToLastDot destination)) with
    | some ip => ip
    | none => []

/-- Modelled from the claim wording of C8, for comparison with the source
function: each candidate is matched by comparing the CANDIDATE dotted-quad
prefix up to its own last component against the destination prefix
truncated at its last dot, returning the first match, else the wildcard. -/
def getBestLocalIPAddressClaim (ips : List (List Char)) (destination : List Char) :
    List Char :=
  if destination = [] then []
  else
    match ips.find? (fun ip => decide (upToLastDot ip = upToLastDot destination)) with
    | some ip => ip
    | none => []

/-! Association-list lemmas. -/

theorem mapFind_mapInsert_self {α : Type} (k : Nat) (v : α) (m : List (Nat × α)) :
    mapFind k (mapInsert k v m) = some v := by
  induction m with
  | nil => simp [mapInsert, mapFind]
  | cons p t ih =>
    obtain ⟨k2, v2⟩ := p
    by_cases h : k = k2
    · subst h; simp [mapInsert, mapFind]
    · simp [mapInsert, mapFind, h, ih]

theorem mapFind_mapInsert_ne {α : Type} (k k2 : Nat) (v : α) (m : List (Nat × α))
    (h : k2 ≠ k) : mapFind k2 (mapInsert k v m) = mapFind k2 m := by
  induction m with
  | nil => simp [mapInsert, mapFind, h]
  | cons p t ih =>
    obtain ⟨k3, v3⟩ := p
    by_cases h2 : k = k3
    · subst h2; simp [mapInsert, mapFind, h]
    · by_cases h3 : k2 = k3
      · subst h3; simp [mapInsert, mapFind, h2]
      · simp [mapInsert, mapFind, h2, h3, ih]

theorem mapFind_mapErase_self {α : Type} (k : Nat) (m : List (Nat × α)) :
    mapFind k (mapErase k m) = none := by
  induction m with
  | nil => simp [mapErase, mapFind]
  | cons p t ih =>
    obtain ⟨k2, v2⟩ := p
    by_cases h : k2 = k
    · subst h; simpa [mapErase] using ih
    · simpa [mapErase, mapFind, h, Ne.symm h] using ih

theorem mapFind_mapErase_ne {α : Type} (k k2 : Nat) (m : List (Nat × α))
    (h : k2 ≠ k) : mapFind k2 (mapErase k m) = mapFind k2 m := by
  induction m with
  | nil => simp [mapErase, mapFind]
  | cons p t ih =>
    obtain ⟨k3, v3⟩ := p
    by_cases h2 : k3 = k
    · subst h2; simpa [mapErase, mapFind, fun hEq => h (hEq : k2 = k3)] using ih
    · by_cases h3 : k2 = k3
      · subst h3; simp [mapErase, mapFind, h2]
      · simpa [mapErase, mapFind, h2, h3] using ih

theorem mem_mapKeys_mapInsert {α : Type} (k k2 : Nat) (v : α) (m : List (Nat × α)) :
    k2 ∈ mapKeys (mapInsert k v m) ↔ k2 = k ∨ k2 ∈ mapKeys m := by
  induction m with
  | nil => simp [mapInsert, mapKeys]
  | cons p t ih =>
    obtain ⟨k3, v3⟩ := p
    by_cases h : k = k3
    · subst h
      simp [mapInsert, mapKeys]
    · simp [mapInsert, mapKeys, h] at ih ⊢
      tauto

theorem mem_mapKeys_mapErase {α : Type} (k k2 : Nat) (m : List (Nat × α)) :
    k2 ∈ mapKeys (mapErase k m) ↔ k2 ∈ mapKeys m ∧ k2 ≠ k := by
  simp only [mapKeys, mapErase, List.mem_map, List.mem_filter, bne_iff_ne, ne_eq]
  constructor
  · rintro ⟨p, ⟨hp, hne⟩, rfl⟩
    exact ⟨⟨p, hp, rfl⟩, hne⟩
  · rintro ⟨⟨p, hp, rfl⟩, hne⟩
    exact ⟨p, ⟨hp, hne⟩, rfl⟩

/-! Basic state-projection lemmas for the loop events. -/

theorem step_sock (s : ServerState) (e : Event) : (step s e).sock = s.sock := by
  cases e with
  | accept id => rfl
  | receive id n => by_cases h : n ≤ 0 <;> simp [step, dropClient, h]
  | drop id => rfl

theorem run_sock (s : ServerState) (es : List Event) : (run s es).sock = s.sock := by
  induction es generalizing s with
  | nil => rfl
  | cons e t ih =>
    show (run (step s e) t).sock = s.sock
    rw [ih, step_sock]

/-- Every fd_set member stays at or below `maxSock` (initially `maxSock`
is the listening socket; the accept branch raises it, cppSocket.cpp:549). -/
def clientsBounded (s : ServerState) : Prop :=
  ∀ c ∈ s.clients, c ≤ s.maxSock

theorem step_clientsBounded (s : ServerState) (e : Event) (h : clientsBounded s) :
    clientsBounded (step s e) := by
  cases e with
  | accept id =>
    intro c hc
    simp only [step] at hc ⊢
    rcases Finset.mem_insert.mp hc with rfl | hc
    · exact le_max_right _ _
    · exact le_trans (h c hc) (le_max_left _ _)
  | receive id n =>
    intro c hc
    by_cases hn : n ≤ 0
    · simp only [step, if_pos hn, dropClient] at hc ⊢
      exact h c (Finset.mem_of_mem_erase hc)
    · simp only [step, if_neg hn] at hc ⊢
      exact h c hc
  | drop id =>
    intro c hc
    exact h c (Finset.mem_of_mem_erase hc)

theorem run_clientsBounded (es : List Event) (s : ServerState) (h : clientsBounded s) :
    clientsBounded (run s es) := by
  induction es generalizing s with
  | nil => exact h
  | cons e t ih =>
    show clientsBounded (run (step s e) t)
    exact ih _ (step_clientsBounded s e h)

theorem initState_clientsBounded (k : Nat) : clientsBounded (initState k) := by
  intro c hc
  simp [initState] at hc
  simp [initState, hc]

/-- The C1 registry invariant that actually holds: every key of the buffer
map is a non-listening member of the fd_set. -/
def registrySubset (s : ServerState) : Prop :=
  ∀ k, k ∈ mapKeys s.buffers → k ∈ s.clients ∧ k ≠ s.sock

theorem step_registrySubset (s : ServerState) (e : Event)
    (hv : validEventB s e = true) (h : registrySubset s) :
    registrySubset (step s e) := by
  cases e with
  | accept id =>
    intro k hk
    simp only [step]
    obtain ⟨h1, h2⟩ := h k hk
    exact ⟨Finset.mem_insert_of_mem h1, h2⟩
  | receive id n =>
    simp only [validEventB, Bool.and_eq_true, decide_eq_true_eq] at hv
    intro k hk
    by_cases hn : n ≤ 0
    · simp only [step, if_pos hn, dropClient] at hk ⊢
      rw [mem_mapKeys_mapErase] at hk
      obtain ⟨hk1, hk2⟩ := hk
      rcases (mem_mapKeys_mapInsert _ _ _ _).mp hk1 with rfl | hk1
      · exact absurd rfl hk2
      · obtain ⟨h1, h2⟩ := h k hk1
        exact ⟨Finset.mem_erase.mpr ⟨hk2, h1⟩, h2⟩
    · simp only [step, if_neg hn] at hk ⊢
      rcases (mem_mapKeys_mapInsert _ _ _ _).mp hk with rfl | hk1
      · exact ⟨hv.1, hv.2⟩
      · exact h k hk1
  | drop id =>
    intro k hk
    simp only [step, dropClient] at hk ⊢
    rw [mem_mapKeys_mapErase] at hk
    obtain ⟨hk1, hk2⟩ := hk
    obtain ⟨h1, h2⟩ := h k hk1
    exact ⟨Finset.mem_erase.mpr ⟨hk2, h1⟩, h2⟩

theorem run_registrySubset (es : List Event) (s : ServerState)
    (hv : validTraceB s es = true) (h : registrySubset s) :
    registrySubset (run s es) := by
  induction es generalizing s with
  | nil => exact h
  | cons e t ih =>
    simp only [validTraceB, Bool.and_eq_true] at hv
    show registrySubset (run (step s e) t)
    exact ih _ hv.2 (step_registrySubset s e hv.1 h)

/-- Pending-queue count of an id is untouched by events that are not a
positive-size receive for that id. -/
theorem step_queue_count (s : ServerState) (id : Nat) (e : Event)
    (he : ∀ m : Int, e = Event.receive id m → m ≤ 0) :
    ((step s e).queue.count id) = s.queue.count id := by
  cases e with
  | accept id2 => rfl
  | receive id2 n =>
    by_cases hn : n ≤ 0
    · simp [step, dropClient, hn]
    · have hne : id2 ≠ id := by
        intro hEq
        subst hEq
        exact hn (he n rfl)
      simp only [step, if_neg hn, List.count_append]
      have hz : List.count id [id2] = 0 :=
        List.count_eq_zero.mpr (fun hmem => hne (List.mem_singleton.mp hmem).symm)
      omega
  | drop id2 => rfl

theorem run_queue_count (id : Nat) (es : List Event) (s : ServerState)
    (he : ∀ e ∈ es, ∀ m : Int, e = Event.receive id m → m ≤ 0) :
    (run s es).queue.count id = s.queue.count id := by
  induction es generalizing s with
  | nil => rfl
  | cons e t ih =>
    show (run (step s e) t).queue.count id = s.queue.count id
    rw [ih _ fun e2 h2 => he e2 (List.mem_cons_of_mem _ h2),
      step_queue_count s id e (he e (List.mem_cons_self _ _))]

/-! Send-path lemmas. -/

theorem getFailed_bumpFailed_self (c : Nat) (s : ServerState) :
    getFailed c (bumpFailed c s) = (getFailed c s + 1) % 65536 := by
  simp only [getFailed, bumpFailed]
  rw [mapFind_mapInsert_self]
  rfl

theorem getFailed_resetFailed_self (c : Nat) (s : ServerState) :
    getFailed c (resetFailed c s) = 0 := by
  simp only [getFailed, resetFailed]
  rw [mapFind_mapInsert_self]
  rfl

theorem getFailed_bumpFailed_other (c c2 : Nat) (s : ServerState) (h : c2 ≠ c) :
    getFailed c2 (bumpFailed c s) = getFailed c2 s := by
  simp only [getFailed, bumpFailed]
  rw [mapFind_mapInsert_ne _ _ _ _ h]

theorem getFailed_resetFailed_other (c c2 : Nat) (s : ServerState) (h : c2 ≠ c) :
    getFailed c2 (resetFailed c s) = getFailed c2 s := by
  simp only [getFailed, resetFailed]
  rw [mapFind_mapInsert_ne _ _ _ _ h]

theorem attemptSend_clients (c : Nat) (bs r : Int) (s : ServerState) :
    (attemptSend c bs r s).2.clients = s.clients := by
  unfold attemptSend
  split_ifs <;> rfl

theorem attemptSend_sock (c : Nat) (bs r : Int) (s : ServerState) :
    (attemptSend c bs r s).2.sock = s.sock := by
  unfold attemptSend
  split_ifs <;> rfl

theorem attemptSend_maxSock (c : Nat) (bs r : Int) (s : ServerState) :
    (attemptSend c bs r s).2.maxSock = s.maxSock := by
  unfold attemptSend
  split_ifs <;> rfl

theorem attemptSend_fst (c : Nat) (bs r : Int) (s : ServerState) :
    (attemptSend c bs r s).1 = true ↔ (r ≠ -1 ∧ r = bs) := by
  unfold attemptSend
  split_ifs with h1 h2
  · simp [h1]
  · simp [h1, h2]
  · have h3 : r = bs := not_not.mp h2
    subst h3
    simp [h1]

theorem attemptSend_failed_success (c : Nat) (bs r : Int) (s : ServerState)
    (h1 : r ≠ -1) (h2 : r = bs) :
    getFailed c (attemptSend c bs r s).2 = 0 := by
  subst h2
  simp only [attemptSend, if_neg h1, ne_eq, not_true_eq_false, if_false, ite_false]
  simpa using getFailed_resetFailed_self c s

theorem attemptSend_failed_fail (c : Nat) (bs r : Int) (s : ServerState)
    (h : r = -1 ∨ r ≠ bs) :
    getFailed c (attemptSend c bs r s).2 = (getFailed c s + 1) % 65536 := by
  rcases h with h | h
  · simp only [attemptSend, if_pos h]
    exact getFailed_bumpFailed_self c s
  · by_cases h1 : r = -1
    · simp only [attemptSend, if_pos h1]
      exact getFailed_bumpFailed_self c s
    · simp only [attemptSend, if_neg h1, if_pos h]
      exact getFailed_bumpFailed_self c s

theorem attemptSend_failed_other (c c2 : Nat) (bs r : Int) (s : ServerState)
    (h : c2 ≠ c) :
    getFailed c2 (attemptSend c bs r s).2 = getFailed c2 s := by
  unfold attemptSend
  split_ifs
  · exact getFailed_bumpFailed_other c c2 s h
  · exact getFailed_bumpFailed_other c c2 s h
  · exact getFailed_resetFailed_other c c2 s h

/-- Counter evolution under consecutive failed or short unicast sends:
each attempt goes through the `failedSendCount[client]++` path, so the
16-bit counter advances by the number of attempts, modulo 2^16. -/
theorem sendResultsApply_failed (client : Nat) (bs : Int) (rs : List Int) :
    ∀ s : ServerState, (∀ r ∈ rs, r = -1 ∨ r ≠ bs) →
      (client ∈ s.clients ∨ client = s.sock) →
      getFailed client s < 65536 →
      getFailed client (sendResultsApply client bs rs s)
        = (getFailed client s + rs.length) % 65536 := by
  induction rs with
  | nil =>
    intro s _ _ hlt
    simp [sendResultsApply, Nat.mod_eq_of_lt hlt]
  | cons r t ih =>
    intro s hf hg hlt
    have hguard : ¬ (client ∉ s.clients ∧ client ≠ s.sock) := by
      rcases hg with h | h
      · exact fun hc => hc.1 h
      · exact fun hc => hc.2 h
    have hstep : (tcpSend client bs r s).2.2 = (attemptSend client bs r s).2 := by
      simp [tcpSend, hguard]
    show getFailed client (sendResultsApply client bs t (tcpSend client bs r s).2.2)
        = (getFailed client s + (r :: t).length) % 65536
    rw [hstep]
    have hfail := attemptSend_failed_fail client bs r s (hf r (List.mem_cons_self _ _))
    have hg2 : client ∈ (attemptSend client bs r s).2.clients
        ∨ client = (attemptSend client bs r s).2.sock := by
      rw [attemptSend_clients, attemptSend_sock]
      exact hg
    have hlt2 : getFailed client (attemptSend client bs r s).2 < 65536 := by
      rw [hfail]
      exact Nat.mod_lt _ (by norm_num)
    rw [ih _ (fun r2 h2 => hf r2 (List.mem_cons_of_mem _ h2)) hg2 hlt2, hfail]
    simp only [List.length_cons]
    omega

theorem serverSendStep_state_clients (bs : Int) (res : Nat → Int) (acc : SendAcc)
    (i : Nat) : (serverSendStep bs res acc i).state.clients = acc.state.clients := by
  unfold serverSendStep
  split_ifs
  · rfl
  · exact attemptSend_clients _ _ _ _

theorem serverSendStep_state_sock (bs : Int) (res : Nat → Int) (acc : SendAcc)
    (i : Nat) : (serverSendStep bs res acc i).state.sock = acc.state.sock := by
  unfold serverSendStep
  split_ifs
  · rfl
  · exact attemptSend_sock _ _ _ _

theorem sendFold_attempted_mem (bs : Int) (res : Nat → Int) (ids : List Nat)
    (c : Nat) :
    ∀ acc : SendAcc,
      (c ∈ (ids.foldl (serverSendStep bs res) acc).attempted ↔
        c ∈ acc.attempted ∨ (c ∈ ids ∧ c ∈ acc.state.clients ∧ c ≠ acc.state.sock)) := by
  induction ids with
  | nil => intro acc; simp
  | cons i t ih =>
    intro acc
    rw [List.foldl_cons]
    by_cases h : i ∉ acc.state.clients ∨ i = acc.state.sock
    · rw [show serverSendStep bs res acc i = acc from by
        unfold serverSendStep; rw [if_pos h]]
      rw [ih]
      constructor
      · rintro (h1 | ⟨h1, h2, h3⟩)
        · exact Or.inl h1
        · exact Or.inr ⟨List.mem_cons_of_mem _ h1, h2, h3⟩
      · rintro (h1 | ⟨h1, h2, h3⟩)
        · exact Or.inl h1
        · rcases List.mem_cons.mp h1 with rfl | h1
          · rcases h with h | h
            · exact absurd h2 h
            · exact absurd h h3
          · exact Or.inr ⟨h1, h2, h3⟩
    · have hmem : i ∈ acc.state.clients := not_not.mp (not_or.mp h).1
      have hsock : i ≠ acc.state.sock := (not_or.mp h).2
      have hstep : serverSendStep bs res acc i =
          { success := acc.success && (attemptSend i bs (res i) acc.state).1,
            calledSend := true, attempted := acc.attempted ++ [i],
            state := (attemptSend i bs (res i) acc.state).2 } := by
        unfold serverSendStep
        rw [if_neg h]
      rw [hstep, ih]
      simp only [attemptSend_clients, attemptSend_sock, List.mem_append,
        List.mem_singleton, List.mem_cons, List.not_mem_nil, or_false]
      constructor
      · rintro ((h1 | rfl) | ⟨h1, h2, h3⟩)
        · exact Or.inl h1
        · exact Or.inr ⟨Or.inl rfl, hmem, hsock⟩
        · exact Or.inr ⟨Or.inr h1, h2, h3⟩
      · rintro (h1 | ⟨(rfl | h1), h2, h3⟩)
        · exact Or.inl (Or.inl h1)
        · exact Or.inl (Or.inr rfl)
        · exact Or.inr ⟨h1, h2, h3⟩

theorem sendFold_success (bs : Int) (res : Nat → Int) (ids : List Nat) :
    ∀ acc : SendAcc,
      ((ids.foldl (serverSendStep bs res) acc).success = true ↔
        (acc.success = true ∧ ∀ i ∈ ids, i ∈ acc.state.clients →
          i ≠ acc.state.sock → (res i ≠ -1 ∧ res i = bs))) := by
  induction ids with
  | nil => intro acc; simp
  | cons i t ih =>
    intro acc
    rw [List.foldl_cons]
    by_cases h : i ∉ acc.state.clients ∨ i = acc.state.sock
    · rw [show serverSendStep bs res acc i = acc from by
        unfold serverSendStep; rw [if_pos h]]
      rw [ih]
      constructor
      · rintro ⟨h1, h2⟩
        refine ⟨h1, fun j hj hj2 hj3 => ?_⟩
        rcases List.mem_cons.mp hj with rfl | hj
        · rcases h with h | h
          · exact absurd hj2 h
          · exact absurd h hj3
        · exact h2 j hj hj2 hj3
      · rintro ⟨h1, h2⟩
        exact ⟨h1, fun j hj => h2 j (List.mem_cons_of_mem _ hj)⟩
    · have hmem : i ∈ acc.state.clients := not_not.mp (not_or.mp h).1
      have hsock : i ≠ acc.state.sock := (not_or.mp h).2
      have hstep : serverSendStep bs res acc i =
          { success := acc.success && (attemptSend i bs (res i) acc.state).1,
            calledSend := true, attempted := acc.attempted ++ [i],
            state := (attemptSend i bs (res i) acc.state).2 } := by
        unfold serverSendStep
        rw [if_neg h]
      rw [hstep, ih]
      simp only [attemptSend_clients, attemptSend_sock]
      constructor
      · rintro ⟨h1, h2⟩
        rw [Bool.and_eq_true] at h1
        refine ⟨h1.1, fun j hj hj2 hj3 => ?_⟩
        rcases List.mem_cons.mp hj with rfl | hj
        · exact (attemptSend_fst _ _ _ _).mp h1.2
        · exact h2 j hj hj2 hj3
      · rintro ⟨h1, h2⟩
        refine ⟨?_, fun j hj => h2 j (List.mem_cons_of_mem _ hj)⟩
        rw [Bool.and_eq_true]
        exact ⟨h1, (attemptSend_fst _ _ _ _).mpr (h2 i (List.mem_cons_self _ _) hmem hsock)⟩

theorem sendFold_called (bs : Int) (res : Nat → Int) (ids : List Nat) :
    ∀ acc : SendAcc,
      ((ids.foldl (serverSendStep bs res) acc).calledSend = true ↔
        (acc.calledSend = true ∨ ∃ i ∈ ids, i ∈ acc.state.clients ∧ i ≠ acc.state.sock)) := by
  induction ids with
  | nil => intro acc; simp
  | cons i t ih =>
    intro acc
    rw [List.foldl_cons]
    by_cases h : i ∉ acc.state.clients ∨ i = acc.state.sock
    · rw [show serverSendStep bs res acc i = acc from by
        unfold serverSendStep; rw [if_pos h]]
      rw [ih]
      constructor
      · rintro (h1 | ⟨j, hj, h2, h3⟩)
        · exact Or.inl h1
        · exact Or.inr ⟨j, List.mem_cons_of_mem _ hj, h2, h3⟩
      · rintro (h1 | ⟨j, hj, h2, h3⟩)
        · exact Or.inl h1
        · rcases List.mem_cons.mp hj with rfl | hj
          · rcases h with h | h
            · exact absurd h2 h
            · exact absurd h h3
          · exact Or.inr ⟨j, hj, h2, h3⟩
    · have hmem : i ∈ acc.state.clients := not_not.mp (not_or.mp h).1
      have hsock : i ≠ acc.state.sock := (not_or.mp h).2
      have hstep : serverSendStep bs res acc i =
          { success := acc.success && (attemptSend i bs (res i) acc.state).1,
            calledSend := true, attempted := acc.attempted ++ [i],
            state := (attemptSend i bs (res i) acc.state).2 } := by
        unfold serverSendStep
        rw [if_neg h]
      rw [hstep, ih]
      constructor
      · intro _
        exact Or.inr ⟨i, List.mem_cons_self _ _, hmem, hsock⟩
      · intro _
        exact Or.inl rfl

theorem sendFold_failed_not_mem (bs : Int) (res : Nat → Int) (ids : List Nat)
    (c : Nat) :
    ∀ acc : SendAcc, c ∉ ids →
      getFailed c (ids.foldl (serverSendStep bs res) acc).state
        = getFailed c acc.state := by
  induction ids with
  | nil => intro acc _; rfl
  | cons i t ih =>
    intro acc h
    rw [List.foldl_cons]
    have hne : c ≠ i := fun hEq => h (hEq ▸ List.mem_cons_self _ _)
    have hone : getFailed c (serverSendStep bs res acc i).state
        = getFailed c acc.state := by
      unfold serverSendStep
      split_ifs
      · rfl
      · exact attemptSend_failed_other _ _ _ _ _ hne
    rw [ih _ (fun h2 => h (List.mem_cons_of_mem _ h2)), hone]

theorem sendFold_failed_success (bs : Int) (res : Nat → Int) (ids : List Nat)
    (c : Nat) (h1 : res c ≠ -1) (h2 : res c = bs) :
    ∀ acc : SendAcc, ids.Nodup → c ∈ ids → c ∈ acc.state.clients →
      c ≠ acc.state.sock →
      getFailed c (ids.foldl (serverSendStep bs res) acc).state = 0 := by
  induction ids with
  | nil => intro acc _ hmem; cases hmem
  | cons i t ih =>
    intro acc hnd hmem hcl hsk
    rw [List.foldl_cons]
    rcases List.mem_cons.mp hmem with rfl | hmem2
    · have hnotin : c ∉ t := (List.nodup_cons.mp hnd).1
      rw [sendFold_failed_not_mem bs res t c _ hnotin]
      have hguard : ¬ (c ∉ acc.state.clients ∨ c = acc.state.sock) := by
        rintro (h | h)
        · exact h hcl
        · exact hsk h
      unfold serverSendStep
      rw [if_neg hguard]
      exact attemptSend_failed_success c bs (res c) acc.state h1 h2
    · exact ih _ (List.nodup_cons.mp hnd).2 hmem2
        (by rw [serverSendStep_state_clients]; exact hcl)
        (by rw [serverSendStep_state_sock]; exact hsk)

theorem tcpServerSend_state (bs : Int) (res : Nat → Int) (s : ServerState) :
    (tcpServerSend bs res s).state
      = ((List.range (s.maxSock + 1)).foldl (serverSendStep bs res)
          ⟨true, false, [], s⟩).state := rfl

theorem tcpServerSend_attempted (bs : Int) (res : Nat → Int) (s : ServerState) :
    (tcpServerSend bs res s).attempted
      = ((List.range (s.maxSock + 1)).foldl (serverSendStep bs res)
          ⟨true, false, [], s⟩).attempted := rfl

theorem tcpServerSend_success (bs : Int) (res : Nat → Int) (s : ServerState) :
    (tcpServerSend bs res s).success
      = (((List.range (s.maxSock + 1)).foldl (serverSendStep bs res)
            ⟨true, false, [], s⟩).success
        && ((List.range (s.maxSock + 1)).foldl (serverSendStep bs res)
            ⟨true, false, [], s⟩).calledSend) := rfl

/-- A trace of positive-size receives appends the peers to the queue in
arrival order and is valid (successful receives touch neither the fd_set
nor the primary socket). -/
theorem run_successful_receives (recs : List (Nat × Int)) :
    ∀ s : ServerState,
      (∀ p ∈ recs, p.1 ∈ s.clients ∧ p.1 ≠ s.sock ∧ 0 < p.2) →
      validTraceB s (recs.map (fun r => Event.receive r.1 r.2)) = true
      ∧ (run s (recs.map (fun r => Event.receive r.1 r.2))).queue
          = s.queue ++ recs.map Prod.fst := by
  induction recs with
  | nil =>
    intro s _
    exact ⟨rfl, by simp [run]⟩
  | cons p t ih =>
    intro s h
    obtain ⟨hmem, hsock, hpos⟩ := h p (List.mem_cons_self _ _)
    have hnle : ¬ p.2 ≤ 0 := by omega
    have hstep : step s (Event.receive p.1 p.2) =
        { s with buffers := mapInsert p.1 p.2 s.buffers,
                 queue := s.queue ++ [p.1] } := by
      simp [step, hnle]
    have hS : ∀ q ∈ t, q.1 ∈ (step s (Event.receive p.1 p.2)).clients
        ∧ q.1 ≠ (step s (Event.receive p.1 p.2)).sock ∧ 0 < q.2 := by
      intro q hq
      obtain ⟨hm, hs2, hp2⟩ := h q (List.mem_cons_of_mem _ hq)
      rw [hstep]
      exact ⟨hm, hs2, hp2⟩
    obtain ⟨hv, hqq⟩ := ih (step s (Event.receive p.1 p.2)) hS
    refine ⟨?_, ?_⟩
    · show (validEventB s (Event.receive p.1 p.2)
        && validTraceB (step s (Event.receive p.1 p.2)) (t.map fun r => Event.receive r.1 r.2)) = true
      rw [Bool.and_eq_true]
      exact ⟨by simp [validEventB, hmem, hsock], hv⟩
    · show (run (step s (Event.receive p.1 p.2)) (t.map fun r => Event.receive r.1 r.2)).queue
        = s.queue ++ (p.1 :: t.map Prod.fst)
      rw [hqq, hstep]
      simp

/-- The first element of a list satisfying the predicate is what `find?`
returns, when everything before it fails the predicate. -/
theorem find?_eq_first_match {α : Type} (p : α → Bool) (pre : List α) (a : α)
    (post : List α) (hpre : ∀ x ∈ pre, p x = false) (ha : p a = true) :
    (pre ++ a :: post).find? p = some a := by
  induction pre with
  | nil => simpa using List.find?_cons_of_pos post ha
  | cons x t ih =>
    have hx : p x = false := hpre x (List.mem_cons_self _ _)
    rw [List.cons_append, List.find?_cons_of_neg _ (by simp [hx])]
    exact ih (fun y hy => hpre y (List.mem_cons_of_mem _ hy))

/-! Claims. -/

/-- C1 counterexample: after a single valid accept event, the new peer is
in the active descriptor set but the Client Registry (the buffer map) is
still empty, so the two memberships are not identical at that observation
point.  A peer only enters the registry at its first receive. -/
theorem claims_C1_cex :
    validTraceB (initState 3) [Event.accept 5] = true
    ∧ 5 ∈ (run (initState 3) [Event.accept 5]).clients
    ∧ (5 : Nat) ≠ 3
    ∧ mapKeys (run (initState 3) [Event.accept 5]).buffers = [] := by
  decide

/-- C1 (amended): at every observation point reachable by valid
accept/receive/drop interleavings, registry membership is a SUBSET of the
active descriptor set minus the listening socket: every key of the buffer
map is a non-listening fd_set member.  Equality can fail, because a peer
enters the descriptor set at accept but the registry only at its first
receive. -/
theorem claims_C1 (k : Nat) (es : List Event)
    (hv : validTraceB (initState k) es = true) :
    ∀ c, c ∈ mapKeys (run (initState k) es).buffers →
      c ∈ (run (initState k) es).clients ∧ c ≠ k := by
  have h0 : registrySubset (initState k) := by
    intro c hc
    simp [initState, mapKeys] at hc
  have h := run_registrySubset es (initState k) hv h0
  intro c hc
  obtain ⟨h1, h2⟩ := h c hc
  refine ⟨h1, ?_⟩
  rw [run_sock] at h2
  exact h2

/-- C1 witness at a concrete valid trace. -/
theorem claims_C1_witness :
    validTraceB (initState 3) [Event.accept 5, Event.receive 5 2] = true
    ∧ (5 ∈ (run (initState 3) [Event.accept 5, Event.receive 5 2]).clients
        ∧ (5 : Nat) ≠ 3) :=
  ⟨by decide,
    claims_C1 3 [Event.accept 5, Event.receive 5 2] (by decide) 5 (by decide)⟩

/-- C2 counterexample: peer 5 delivers one message (it is queued), then its
next receive returns 0 bytes and it is dropped - but `DropClient` does not
purge the pending-receipt queue, so 5 still appears in the queue after the
deregistering event, refuting the never-subsequently-appears clause. -/
theorem claims_C2_cex :
    validTraceB (initState 3)
      [Event.accept 5, Event.receive 5 1, Event.receive 5 0] = true
    ∧ (run (initState 3)
        [Event.accept 5, Event.receive 5 1, Event.receive 5 0]).queue = [5]
    ∧ 5 ∉ (run (initState 3)
        [Event.accept 5, Event.receive 5 1, Event.receive 5 0]).clients := by
  decide

/-- C2 (amended): a receive of at most 0 bytes for peer P immediately
deregisters P (fd_set, buffer map and failed-send counter) and pushes
nothing for that event; across any later events that contain no
positive-size receive for P, the number of occurrences of P in the queue
does not change - entries queued for P before the disconnect remain. -/
theorem claims_C2 (s : ServerState) (id : Nat) (n : Int) (es : List Event)
    (_hv : validEventB s (Event.receive id n) = true) (hn : n ≤ 0)
    (hes : ∀ e ∈ es, ∀ m : Int, e = Event.receive id m → m ≤ 0) :
    id ∉ (step s (Event.receive id n)).clients
    ∧ id ∉ mapKeys (step s (Event.receive id n)).buffers
    ∧ id ∉ mapKeys (step s (Event.receive id n)).failed
    ∧ (step s (Event.receive id n)).queue = s.queue
    ∧ (run (step s (Event.receive id n)) es).queue.count id
        = s.queue.count id := by
  have hstep : step s (Event.receive id n)
      = dropClient id { s with buffers := mapInsert id n s.buffers } := by
    simp [step, hn]
  refine ⟨?_, ?_, ?_, ?_, ?_⟩
  · rw [hstep]
    exact Finset.not_mem_erase _ _
  · rw [hstep]
    simp only [dropClient]
    intro hmem
    exact ((mem_mapKeys_mapErase _ _ _).mp hmem).2 rfl
  · rw [hstep]
    simp only [dropClient]
    intro hmem
    exact ((mem_mapKeys_mapErase _ _ _).mp hmem).2 rfl
  · rw [hstep]
    rfl
  · rw [run_queue_count id es _ (fun e he m hm => hes e he m hm), hstep]
    rfl

/-- C2 witness at a concrete state and follow-up trace. -/
theorem claims_C2_witness :
    validEventB (run (initState 3) [Event.accept 5]) (Event.receive 5 0) = true
    ∧ (0 : Int) ≤ 0
    ∧ (run (step (run (initState 3) [Event.accept 5]) (Event.receive 5 0))
        [Event.accept 6]).queue.count 5
      = (run (initState 3) [Event.accept 5]).queue.count 5 :=
  ⟨by decide, by decide,
    (claims_C2 (run (initState 3) [Event.accept 5]) 5 0 [Event.accept 6]
      (by decide) (by decide)
      (by
        intro e he m hm
        rw [List.mem_singleton] at he
        subst he
        simp at hm)).2.2.2.2⟩

/-- C3 counterexample: the failed-send counter is a 16-bit value
(`std::map<SocketID, unsigned short>`, cppSocket.h:139), so 65536
consecutive failed sends starting from 0 leave the counter at 0, not at
65536 as the claim demands for every M. -/
theorem claims_C3_cex :
    getFailed 5 (sendResultsApply 5 10 (List.replicate 65536 (-1))
      (run (initState 3) [Event.accept 5])) = 0
    ∧ (List.replicate 65536 (-1 : Int)).length = 65536 := by
  have hf : ∀ r ∈ List.replicate 65536 (-1 : Int), r = -1 ∨ r ≠ 10 :=
    fun r hr => Or.inl (List.eq_of_mem_replicate hr)
  have h := sendResultsApply_failed 5 10 (List.replicate 65536 (-1))
    (run (initState 3) [Event.accept 5]) hf (Or.inl (by decide)) (by decide)
  constructor
  · rw [h]
    have h0 : getFailed 5 (run (initState 3) [Event.accept 5]) = 0 := by decide
    rw [h0, List.length_replicate]
  · rw [List.length_replicate]

/-- C3 (amended): for a registered peer, any fully successful send -
unicast or broadcast - resets its failed-send counter to exactly 0;
starting from 0, M consecutive failed or short sends leave the 16-bit
counter at M mod 2^16, hence at exactly M whenever M < 2^16; as a natural
number it is never negative. -/
theorem claims_C3 (s : ServerState) (client : Nat) (bs : Int)
    (hmem : client ∈ s.clients) (hsock : client ≠ s.sock)
    (hmax : client ≤ s.maxSock) :
    (∀ r : Int, r ≠ -1 → r = bs →
      getFailed client (tcpSend client bs r s).2.2 = 0)
    ∧ (∀ res : Nat → Int, res client ≠ -1 → res client = bs →
      getFailed client (tcpServerSend bs res s).state = 0)
    ∧ (∀ rs : List Int, (∀ r ∈ rs, r = -1 ∨ r ≠ bs) → getFailed client s = 0 →
      getFailed client (sendResultsApply client bs rs s) = rs.length % 65536)
    ∧ (∀ rs : List Int, (∀ r ∈ rs, r = -1 ∨ r ≠ bs) → getFailed client s = 0 →
      rs.length < 65536 →
      getFailed client (sendResultsApply client bs rs s) = rs.length) := by
  have hguard : ¬ (client ∉ s.clients ∧ client ≠ s.sock) := fun hc => hc.1 hmem
  refine ⟨?_, ?_, ?_, ?_⟩
  · intro r h1 h2
    have hred : (tcpSend client bs r s).2.2 = (attemptSend client bs r s).2 := by
      simp [tcpSend, hguard]
    rw [hred]
    exact attemptSend_failed_success client bs r s h1 h2
  · intro res h1 h2
    rw [tcpServerSend_state]
    exact sendFold_failed_success bs res (List.range (s.maxSock + 1)) client h1 h2
      ⟨true, false, [], s⟩ (List.nodup_range _)
      (List.mem_range.mpr (Nat.lt_succ_of_le hmax)) hmem hsock
  · intro rs hf h0
    rw [sendResultsApply_failed client bs rs s hf (Or.inl hmem)
      (by rw [h0]; norm_num), h0, Nat.zero_add]
  · intro rs hf h0 hlen
    rw [sendResultsApply_failed client bs rs s hf (Or.inl hmem)
      (by rw [h0]; norm_num), h0, Nat.zero_add, Nat.mod_eq_of_lt hlen]

/-- C3 witness: reset on a full send and two consecutive failures. -/
theorem claims_C3_witness :
    (5 ∈ (run (initState 3) [Event.accept 5]).clients
      ∧ (5 : Nat) ≠ (run (initState 3) [Event.accept 5]).sock
      ∧ 5 ≤ (run (initState 3) [Event.accept 5]).maxSock)
    ∧ getFailed 5 (tcpSend 5 10 10 (run (initState 3) [Event.accept 5])).2.2 = 0
    ∧ getFailed 5 (sendResultsApply 5 10 [-1, -1]
        (run (initState 3) [Event.accept 5])) = 2 := by
  have h := claims_C3 (run (initState 3) [Event.accept 5]) 5 10
    (by decide) (by decide) (by decide)
  exact ⟨⟨by decide, by decide, by decide⟩,
    h.1 10 (by decide) rfl,
    h.2.2.2 [-1, -1] (by decide) (by decide) (by decide)⟩

/-- C4 (confirmed): on any state reached from a fresh listening state, the
broadcast send attempts an OS write exactly for the registered peers
(fd_set members other than the primary socket) - regardless of any
failures among them - and returns true if and only if at least one peer
exists and every attempted send is fully successful; with zero registered
peers it returns false. -/
theorem claims_C4 (k : Nat) (es : List Event) (bs : Int) (res : Nat → Int)
    (st : ServerState) (hst : st = run (initState k) es) :
    (∀ c, c ∈ (tcpServerSend bs res st).attempted
        ↔ (c ∈ st.clients ∧ c ≠ st.sock))
    ∧ ((tcpServerSend bs res st).success = true ↔
        ((∃ c ∈ st.clients, c ≠ st.sock)
          ∧ ∀ c ∈ st.clients, c ≠ st.sock → (res c ≠ -1 ∧ res c = bs)))
    ∧ (st.clients.erase st.sock = ∅ →
        (tcpServerSend bs res st).success = false) := by
  have hbound : clientsBounded st := by
    rw [hst]
    exact run_clientsBounded es _ (initState_clientsBounded k)
  have hiff : (tcpServerSend bs res st).success = true ↔
      ((∃ c ∈ st.clients, c ≠ st.sock)
        ∧ ∀ c ∈ st.clients, c ≠ st.sock → (res c ≠ -1 ∧ res c = bs)) := by
    rw [tcpServerSend_success, Bool.and_eq_true, sendFold_success, sendFold_called]
    constructor
    · rintro ⟨⟨_, hall⟩, hcall⟩
      rcases hcall with hcall | ⟨i, _, h2, h3⟩
      · exact absurd hcall (by simp)
      · exact ⟨⟨i, h2, h3⟩, fun c hc hcs =>
          hall c (List.mem_range.mpr (Nat.lt_succ_of_le (hbound c hc))) hc hcs⟩
    · rintro ⟨⟨i, hi, h3⟩, hall⟩
      exact ⟨⟨rfl, fun c _ hcm hcs => hall c hcm hcs⟩,
        Or.inr ⟨i, List.mem_range.mpr (Nat.lt_succ_of_le (hbound i hi)), hi, h3⟩⟩
  refine ⟨?_, hiff, ?_⟩
  · intro c
    rw [tcpServerSend_attempted, sendFold_attempted_mem]
    constructor
    · rintro (h | ⟨_, h2, h3⟩)
      · exact absurd h (List.not_mem_nil c)
      · exact ⟨h2, h3⟩
    · rintro ⟨h2, h3⟩
      exact Or.inr
        ⟨List.mem_range.mpr (Nat.lt_succ_of_le (hbound c h2)), h2, h3⟩
  · intro hempty
    cases hs : (tcpServerSend bs res st).success with
    | false => rfl
    | true =>
      obtain ⟨⟨c, hc, hcs⟩, _⟩ := hiff.mp hs
      have : c ∈ st.clients.erase st.sock := Finset.mem_erase.mpr ⟨hcs, hc⟩
      rw [hempty] at this
      exact absurd this (Finset.not_mem_empty c)

/-- C4 witness: one registered peer, all sends fully successful. -/
theorem claims_C4_witness :
    (tcpServerSend 4 (fun _ => 4) (run (initState 3) [Event.accept 5])).success
      = true :=
  ((claims_C4 3 [Event.accept 5] 4 (fun _ => 4) _ rfl).2.1).mpr
    ⟨⟨5, by decide, by decide⟩, by decide⟩

/-- C5 counterexample: the listening socket id is not a registered peer
(the registered-peer set of the fresh listening state is empty), yet the
unicast send to it passes the guard `FD_ISSET == 0 && client != sock`
(cppSocket.cpp:1047), performs the OS write, and on failure modifies the
failed-send counter of that id from 0 to 1. -/
theorem claims_C5_cex :
    (initState 3).clients.erase (initState 3).sock = ∅
    ∧ (tcpSend 3 10 (-1) (initState 3)).2.1 = true
    ∧ getFailed 3 (initState 3) = 0
    ∧ getFailed 3 (tcpSend 3 10 (-1) (initState 3)).2.2 = 1 := by
  decide

/-- C5 (amended): for every identity that is neither in the fd_set nor
equal to the primary socket, the unicast send returns failure without
calling the OS write and with the state (hence every failed-send counter)
unchanged. -/
theorem claims_C5 (s : ServerState) (client : Nat) (bs r : Int)
    (h1 : client ∉ s.clients) (h2 : client ≠ s.sock) :
    tcpSend client bs r s = (false, false, s) := by
  simp [tcpSend, h1, h2]

/-- C5 witness at a concrete unregistered identity. -/
theorem claims_C5_witness :
    (7 ∉ (initState 3).clients ∧ (7 : Nat) ≠ (initState 3).sock)
    ∧ tcpSend 7 10 10 (initState 3) = (false, false, initState 3) :=
  ⟨⟨by decide, by decide⟩, claims_C5 (initState 3) 7 10 10 (by decide) (by decide)⟩

/-- C6 counterexample: two successful receives from the same peer before
any consume leave the peer queued twice - `HandleClient` pushes
unconditionally (cppSocket.cpp:587), so the producer does re-insert an
identity that is already in the queue. -/
theorem claims_C6_cex :
    validTraceB (initState 3)
      [Event.accept 5, Event.receive 5 1, Event.receive 5 2] = true
    ∧ (run (initState 3)
        [Event.accept 5, Event.receive 5 1, Event.receive 5 2]).queue = [5, 5]
    ∧ ¬ (run (initState 3)
        [Event.accept 5, Event.receive 5 1, Event.receive 5 2]).queue.Nodup := by
  decide

/-- C6 (amended): the queue is FIFO - identities are appended in arrival
order and removed only by the consumer pop, so N successful receives from
N distinct peers starting from an empty queue yield exactly those N
entries in arrival order, and the first pop returns the first arrival;
however the producer pushes on EVERY successful receive, re-inserting an
identity that is already queued. -/
theorem claims_C6 (s : ServerState) (recs : List (Nat × Int))
    (_hnd : (recs.map Prod.fst).Nodup)
    (h : ∀ p ∈ recs, p.1 ∈ s.clients ∧ p.1 ≠ s.sock ∧ 0 < p.2)
    (hq : s.queue = []) :
    validTraceB s (recs.map (fun r => Event.receive r.1 r.2)) = true
    ∧ (run s (recs.map (fun r => Event.receive r.1 r.2))).queue
        = recs.map Prod.fst
    ∧ (∀ p ps, recs.map Prod.fst = p :: ps →
        (getLastMessage (run s (recs.map (fun r => Event.receive r.1 r.2)))).1
          = some p
        ∧ (getLastMessage
            (run s (recs.map (fun r => Event.receive r.1 r.2)))).2.queue = ps) := by
  obtain ⟨hv, hqq⟩ := run_successful_receives recs s h
  rw [hq, List.nil_append] at hqq
  refine ⟨hv, hqq, ?_⟩
  intro p ps hps
  have hcons : (run s (recs.map (fun r => Event.receive r.1 r.2))).queue
      = p :: ps := by
    rw [hqq, hps]
  constructor
  · simp [getLastMessage, hcons]
  · simp [getLastMessage, hcons]

/-- C6 witness: two distinct peers, two successful receives in order. -/
theorem claims_C6_witness :
    ((([(5, 1), (6, 2)] : List (Nat × Int)).map Prod.fst).Nodup
      ∧ (run (initState 3) [Event.accept 5, Event.accept 6]).queue = [])
    ∧ (run (run (initState 3) [Event.accept 5, Event.accept 6])
        (([(5, 1), (6, 2)] : List (Nat × Int)).map
          (fun r => Event.receive r.1 r.2))).queue = [5, 6] :=
  ⟨⟨by decide, by decide⟩,
    (claims_C6 (run (initState 3) [Event.accept 5, Event.accept 6])
      [(5, 1), (6, 2)] (by decide) (by decide) (by decide)).2.1⟩

/-- C7 counterexample: with peer 5 registered, `Destroy` closes only the
primary socket 3 - descriptor 5 is dropped from every container but never
passed to `close`, refuting the closes-every-registered-peer clause. -/
theorem claims_C7_cex :
    5 ∈ (run (initState 3) [Event.accept 5]).clients
    ∧ (5 : Nat) ≠ (run (initState 3) [Event.accept 5]).sock
    ∧ (destroy (run (initState 3) [Event.accept 5])).closeCalls = [3]
    ∧ 5 ∉ (destroy (run (initState 3) [Event.accept 5])).closeCalls := by
  decide

/-- C7 (amended): each `Destroy` call signals the loop to stop, empties the
descriptor set, the registry, the failed-send counters and the queue (so
the client count is 0), and shuts down and closes the primary socket - but
it does not close the registered peer descriptors, and it does not reset
the handle; a repeated call leaves the already-cleared state unchanged
except for closing the primary socket once more. -/
theorem claims_C7 (s : ServerState) :
    (destroy s).continueListening = false
    ∧ (destroy s).clients = ∅
    ∧ (destroy s).buffers = []
    ∧ (destroy s).failed = []
    ∧ (destroy s).queue = []
    ∧ (destroy s).sock = s.sock
    ∧ (destroy s).closeCalls = s.closeCalls ++ [s.sock]
    ∧ getClientCount (destroy s) = 0
    ∧ destroy (destroy s)
        = { destroy s with closeCalls := (destroy s).closeCalls ++ [s.sock] } := by
  refine ⟨rfl, rfl, rfl, rfl, rfl, rfl, rfl, ?_, rfl⟩
  simp [getClientCount, destroy]

/-- C8 counterexample: destination 10.1.2.3 has compare string 10.1.2; the
candidate 10.1.25.7 has dotted-quad prefix 10.1.25, which differs from the
destination prefix, yet the source function returns it because only the
first six characters of the candidate are compared; the function built
from the claim wording returns the wildcard instead. -/
theorem claims_C8_cex :
    getBestLocalIPAddress
        [['1', '0', '.', '1', '.', '2', '5', '.', '7']]
        ['1', '0', '.', '1', '.', '2', '.', '3']
      = ['1', '0', '.', '1', '.', '2', '5', '.', '7']
    ∧ upToLastDot ['1', '0', '.', '1', '.', '2', '5', '.', '7']
        ≠ upToLastDot ['1', '0', '.', '1', '.', '2', '.', '3']
    ∧ getBestLocalIPAddressClaim
        [['1', '0', '.', '1', '.', '2', '5', '.', '7']]
        ['1', '0', '.', '1', '.', '2', '.', '3']
      = [] := by
  decide

/-- C8 (amended): for an empty destination the wildcard is returned; for a
non-empty destination the candidates are compared by their LEADING
characters only - each candidate is truncated to the length of the
destination compare string (the destination up to its last dot), not at
the candidate own component boundary - and the first candidate passing
that comparison is returned, else the wildcard. -/
theorem claims_C8 (ips : List (List Char)) (destination : List Char) :
    (destination = [] → getBestLocalIPAddress ips destination = [])
    ∧ (destination ≠ [] →
        (∀ ip ∈ ips, candidateMatches (upToLastDot destination) ip = false) →
        getBestLocalIPAddress ips destination = [])
    ∧ (destination ≠ [] →
        ∀ pre ip post, ips = pre ++ ip :: post →
          (∀ c ∈ pre, candidateMatches (upToLastDot destination) c = false) →
          candidateMatches (upToLastDot destination) ip = true →
          getBestLocalIPAddress ips destination = ip) := by
  refine ⟨?_, ?_, ?_⟩
  · intro h
    simp [getBestLocalIPAddress, h]
  · intro h hnone
    have hfind : ips.find? (candidateMatches (upToLastDot destination)) = none :=
      List.find?_eq_none.mpr (fun x hx => by simp [hnone x hx])
    simp [getBestLocalIPAddress, h, hfind]
  · intro h pre ip post hsplit hpre hip
    have hfind : ips.find? (candidateMatches (upToLastDot destination))
        = some ip := by
      rw [hsplit]
      exact find?_eq_first_match _ pre ip post hpre hip
    simp [getBestLocalIPAddress, h, hfind]

/-- C8 witness: second candidate is the first prefix match. -/
theorem claims_C8_witness :
    (['1', '0', '.', '1', '.', '2', '.', '3'] : List Char) ≠ []
    ∧ getBestLocalIPAddress
        [['9', '.', '9', '.', '9', '.', '9'], ['1', '0', '.', '1', '.', '2', '.', '8']]
        ['1', '0', '.', '1', '.', '2', '.', '3']
      = ['1', '0', '.', '1', '.', '2', '.', '8'] :=
  ⟨by decide,
    (claims_C8
      [['9', '.', '9', '.', '9', '.', '9'], ['1', '0', '.', '1', '.', '2', '.', '8']]
      ['1', '0', '.', '1', '.', '2', '.', '3']).2.2 (by decide)
      [['9', '.', '9', '.', '9', '.', '9']] ['1', '0', '.', '1', '.', '2', '.', '8'] []
      rfl (by decide) (by decide)⟩

/-- C9 counterexample: a created endpoint with descriptor 7 keeps `sock = 7`
after `Destroy` - the handle is not restored to its pre-creation value 0
(and the member initializer is 0, not the platform invalid sentinel). -/
theorem claims_C9_cex :
    (destroy (initState 7)).sock = 7
    ∧ (7 : Nat) ≠ 0
    ∧ newCPPSocket.sock = 0 := by
  decide

/-- C9 (amended): the handle member is initialized to 0 at construction
(cppSocket.h:113), and `Destroy` closes the descriptor without resetting
the member: after `Destroy` the handle still holds whatever descriptor
value it had, not a sentinel. -/
theorem claims_C9 :
    newCPPSocket.sock = 0
    ∧ ∀ s : ServerState, (destroy s).sock = s.sock :=
  ⟨rfl, fun _ => rfl⟩

/-- C10 counterexample: after peer 5 is queued and then dropped by a
zero-byte receive, the queue still fronts 5 while the registry has no
entry for 5; the peek then returns the value-initialized length 0 rather
than a recorded length, and mutates per-peer state by inserting a fresh
registry entry for 5. -/
theorem claims_C10_cex :
    (run (initState 3)
      [Event.accept 5, Event.receive 5 1, Event.receive 5 0]).queue = [5]
    ∧ mapFind 5 (run (initState 3)
        [Event.accept 5, Event.receive 5 1, Event.receive 5 0]).buffers = none
    ∧ (receiveServer (run (initState 3)
        [Event.accept 5, Event.receive 5 1, Event.receive 5 0])).1 = 0
    ∧ (receiveServer (run (initState 3)
        [Event.accept 5, Event.receive 5 1, Event.receive 5 0])).2.2.buffers
      = [(5, 0)] := by
  decide

/-- C10 (amended): with an empty queue the peek returns SOCKET_ERROR (-1)
and changes nothing; with a non-empty queue it writes the front identity
to the output argument and does not pop; it returns the recorded message
length when the front peer still has a registry entry, and otherwise
value-initializes a fresh entry for the front identity and returns 0. -/
theorem claims_C10 (s : ServerState) :
    (s.queue = [] → receiveServer s = (-1, none, s))
    ∧ (∀ id rest, s.queue = id :: rest →
        (receiveServer s).2.1 = some id
        ∧ (receiveServer s).2.2.queue = s.queue
        ∧ (∀ sz, mapFind id s.buffers = some sz →
            receiveServer s = (sz, some id, s))
        ∧ (mapFind id s.buffers = none →
            (receiveServer s).1 = 0
            ∧ (receiveServer s).2.2.buffers = mapInsert id 0 s.buffers)) := by
  constructor
  · intro h
    simp [receiveServer, h]
  · intro id rest hq
    cases hfind : mapFind id s.buffers with
    | some sz =>
      have hun : receiveServer s = (sz, some id, s) := by
        simp [receiveServer, hq, hfind]
      refine ⟨by rw [hun], by rw [hun], ?_, ?_⟩
      · intro sz2 hsz2
        cases hsz2
        exact hun
      · intro hnone
        simp at hnone
    | none =>
      have hun : receiveServer s
          = (0, some id, { s with buffers := mapInsert id 0 s.buffers }) := by
        simp [receiveServer, hq, hfind]
      refine ⟨by rw [hun], by rw [hun], ?_, ?_⟩
      · intro sz2 hsz2
        simp at hsz2
      · intro _
        exact ⟨by rw [hun], by rw [hun]⟩

/-- C10 witness: queued peer with a recorded length of 2 is peeked without
popping and without state change. -/
theorem claims_C10_witness :
    (run (initState 3) [Event.accept 5, Event.receive 5 2]).queue = [5]
    ∧ receiveServer (run (initState 3) [Event.accept 5, Event.receive 5 2])
        = (2, some 5, run (initState 3) [Event.accept 5, Event.receive 5 2]) :=
  ⟨by decide,
    ((claims_C10 (run (initState 3) [Event.accept 5, Event.receive 5 2])).2 5 []
      (by decide)).2.2.1 2 (by decide)⟩

end CPPSocket
